import Mathlib

/-
  Verification of the plotypus light-curve fitting core.

  Shallow embedding of the relevant parts of the repository:
    - utils.py          : median, mad
    - lightcurve.py     : find_outliers, the robust fitting loop of get_lightcurve
    - preprocessing.py  : Fourier class, trigonometric_coefficient_matrix
    - periodogram.py    : get_phase, conditional_entropy, CE

  Numeric columns of the data files are embedded as elements of a linear
  ordered field (instantiated at the rationals for concrete evaluation and at
  the reals where trigonometric functions are needed).  Python exceptions are
  embedded as Except values; the None returns of get_lightcurve are embedded
  as an explicit aborted outcome.
-/

namespace Plotypus

/-! ## utils.py -/

/-- Embeds numpy.median with axis=None as used by utils.mad: sort the values,
take the middle one for odd length, the mean of the two middle ones for even
length. -/
def median {F : Type} [LinearOrderedField F] (xs : List F) : F :=
  let s := xs.mergeSort (fun a b => decide (a ≤ b))
  if xs.length % 2 = 1 then s.getD (xs.length / 2) 0
  else (s.getD (xs.length / 2 - 1) 0 + s.getD (xs.length / 2) 0) / 2

/-- utils.py, mad: median absolute deviation,
median(absolute(data - median(data))). -/
def mad {F : Type} [LinearOrderedField F] (xs : List F) : F :=
  median ((xs.map (fun x => |x - median xs|)))

/-! ## lightcurve.py: find_outliers (lines 386 to 392)

The call site at line 283 passes `data.data`, the (n_samples, n_cols) array.
Line 387 reads `time, mag, *err = data` with NO transpose, unlike every other
destructuring site in the file (lines 245, 362, 404, 415, which all use .T).
Iterating a 2-D numpy array yields its rows, so the function destructures
OBSERVATION ROWS: `time` is observation 0, `mag` is observation 1, `err` is
the list of the remaining rows (non-empty exactly when the dataset has more
than two rows, with err[0] = observation 2), and fewer than two rows raise a
ValueError.  The residual vector
`residuals = absolute(predictor.predict(colvec(time)) - mag)` therefore has
one entry per COLUMN of the dataset, and
`numpy.tile(numpy.vstack(outliers), data.shape[1])` returns an
n_cols x n_cols boolean array whose row j is the per-column flag j replicated
n_cols times.  The embedding takes the dataset as its list of rows and
returns exactly that tiled matrix (or the unpacking error). -/

def find_outliers {F : Type} [LinearOrderedField F] (data : List (List F))
    (predict : F → F) (sigma : F) (method : List F → F) :
    Except String (List (List Bool)) :=
  match data with
  | time :: mag :: err =>
    let residuals := List.zipWith (fun t m => |predict t - m|) time mag
    let outliers :=
      match err with
      | e0 :: _ =>
          List.zipWith (fun r er => decide (r > er) && decide (r > sigma * method residuals))
            residuals e0
      | [] => residuals.map (fun r => decide (r > sigma * method residuals))
    .ok (outliers.map (fun o => List.replicate time.length o))
  | _ => .error ("ValueError: not enough values to unpack")

/-- Modelled from the spec: the per-row outlier criterion the claim states,
reading each dataset row as (time, magnitude[, error]): a row is an outlier
exactly when (it has a reported measurement error, i.e. a third entry, and
its absolute residual exceeds that error) AND its residual exceeds sigma
times the scale estimate of the per-row residual array; in particular a
dataset with no error column has no outliers, since the first conjunct never
holds. -/
def find_outliers_claimed {F : Type} [LinearOrderedField F] (data : List (List F))
    (predict : F → F) (sigma : F) (method : List F → F) : List Bool :=
  let residuals := data.map (fun row => |predict (row.getD 0 0) - row.getD 1 0|)
  List.zipWith
    (fun row r => decide (2 < row.length ∧ row.getD 2 0 < r)
      && decide (sigma * method residuals < r))
    data residuals

/-! ## lightcurve.py: the robust fitting loop of get_lightcurve (lines 225 to 298)

The loop threads one piece of mutable state, the boolean outlier mask over the
dataset rows (`data.mask`; the numpy mask is column-replicated, and both the
updates at lines 289 and 295 and the reads at lines 227 and 287 treat it as a
single per-row flag vector, so a single List Bool is a faithful embedding).

Per iteration the source does, in order:
  1. signal = get_signal(data); if len(signal) <= scoring_cv: return  (None)
  2. find the period and fit the predictor on the inliers; a caught
     regression ConvergenceWarning makes the whole call return None
  3. if sigma > 0: outliers = find_outliers(...); if no outliers were found
     or the found set is a subset of the current mask, set the mask to the
     found set and break (converged); otherwise or the found set into the
     mask and continue
  4. if sigma <= 0: break with the mask unchanged

The period search and the predictor refit are performed anew from the current
inlier set each time round the loop, so the outlier flags produced by step 3
are a function of the current mask alone; we abstract them as
`detect : List Bool → List Bool` (one flag per dataset row, the granularity
at which lines 285 to 295 read and write the mask), and the possibility of a
fit failure in step 2 as `fitFails : List Bool → Bool`.

This abstraction covers every pass the real program completes: the abort
check of step 1 precedes everything, and any pass that hands a mask to the
next iteration did so through the mask_or of line 295.  It does NOT model the
exception paths of the sigma > 0 branch: the real find_outliers (see above)
returns an n_cols x n_cols tile, so the mask update at line 289 or 295 raises
a shape-mismatch exception whenever the row count differs from the column
count, and a raising pass produces no further iterations and no result at
all (see the C4 theorem below for the failing shape). -/

/-- Number of rows the current mask marks as outliers
(`sum(outliers)` over one mask column). -/
def countTrue (m : List Bool) : ℕ := m.count true

/-- Number of unmasked rows, len(get_signal(data)) for a column-replicated
mask. -/
def inlierCount (m : List Bool) : ℕ := m.count false

/-- Pointwise numpy.ma.mask_or of two per-row flag vectors. -/
def maskOr (m o : List Bool) : List Bool := List.zipWith or m o

/-- Indices of the rows a flag vector marks, numpy.nonzero(mask.T[0])[0]. -/
def trueIndices (m : List Bool) : List ℕ :=
  (List.range m.length).filter (fun i => m.getD i false)

/-- The test set.issubset(set(nonzero(outliers)), set(nonzero(mask))) from
line 287. -/
def submask (o m : List Bool) : Bool :=
  (trueIndices o).all (fun i => decide (i ∈ trueIndices m))

/-- Outcome of one pass through the body of the while loop. -/
inductive IterResult where
  | insufficientData : IterResult
  | fitFailure : IterResult
  | accept : List Bool → IterResult
  | reject : List Bool → IterResult
deriving DecidableEq

/-- One pass through the body of the while loop of get_lightcurve, as a
function of the current mask.  `scoring_cv` is the cross-validation fold
count, `sigmaPos` records whether sigma > 0. -/
def get_lightcurve_iter (scoring_cv : ℕ) (sigmaPos : Bool)
    (fitFails : List Bool → Bool) (detect : List Bool → List Bool)
    (mask : List Bool) : IterResult :=
  if inlierCount mask ≤ scoring_cv then .insufficientData
  else if fitFails mask then .fitFailure
  else if sigmaPos then
    let o := detect mask
    if countTrue o = 0 ∨ submask o mask then .accept o
    else .reject (maskOr mask o)
  else .accept mask

/-- How the whole call to get_lightcurve ends: `aborted` embeds the `return`
statements that produce None (insufficient inliers, or a regression
convergence warning); `converged m` embeds breaking out of the loop with
final mask m and going on to build the non-null result dictionary;
`fuelOut` is an artifact of the fuel encoding and is proved unreachable
for sufficient fuel. -/
inductive LoopExit where
  | aborted : LoopExit
  | converged : List Bool → LoopExit
  | fuelOut : LoopExit
deriving DecidableEq

/-- The while loop of get_lightcurve, with an explicit fuel bound on the
number of continue branches taken.  Returns the number of loop iterations
that reached the fitting step together with the exit. -/
def get_lightcurve_loop (scoring_cv : ℕ) (sigmaPos : Bool)
    (fitFails : List Bool → Bool) (detect : List Bool → List Bool) :
    ℕ → List Bool → ℕ × LoopExit
  | fuel, mask =>
    match get_lightcurve_iter scoring_cv sigmaPos fitFails detect mask with
    | .insufficientData => (0, .aborted)
    | .fitFailure => (1, .aborted)
    | .accept m => (1, .converged m)
    | .reject m =>
      match fuel with
      | 0 => (1, .fuelOut)
      | fuel' + 1 =>
        let r := get_lightcurve_loop scoring_cv sigmaPos fitFails detect fuel' m
        (r.1 + 1, r.2)

/-! ## preprocessing.py -/

/-- preprocessing.py lines 31 to 36: the n by (2*degree+1) trigonometric
design matrix, row i built from phases[i], entry j equal to 1 when j = 0,
cos(pi*(j+1)*phase) when j is odd and sin(pi*j*phase) when j is even and
nonzero. -/
noncomputable def trigonometric_coefficient_matrix (phases : List ℝ) (degree : ℕ) :
    List (List ℝ) :=
  (List.range phases.length).map (fun i =>
    (List.range (2 * degree + 1)).map (fun j : ℕ =>
      if j = 0 then 1
      else if j % 2 = 1 then Real.cos (Real.pi * ((j : ℝ) + 1) * phases.getD i 0)
      else Real.sin (Real.pi * (j : ℝ) * phases.getD i 0)))

/-- preprocessing.py lines 8 to 10: the Fourier stage; its constructor sets
self.degree = degree (default 3) and nothing else, so the degree is its whole
state. -/
structure Fourier where
  degree : ℕ
deriving DecidableEq

/-- preprocessing.py lines 15 to 22: pair each phase with its position, sort
the pairs by phase, build the coefficient matrix from the sorted phases, then
sort the (position, row) pairs back by position and keep the rows.  The
python argsort and sorted calls are embedded with mergeSort; tied phases
yield identical rows, so the choice of sorting algorithm does not affect the
result. -/
noncomputable def Fourier.transform (f : Fourier) (X : List ℝ) : List (List ℝ) :=
  let data := X.zip (List.range X.length)
  let srt := data.mergeSort (fun a b => decide (a.1 ≤ b.1))
  let phase := srt.map Prod.fst
  let order := srt.map Prod.snd
  let coefficients := trigonometric_coefficient_matrix phase f.degree
  ((order.zip coefficients).mergeSort (fun a b => decide (a.1 ≤ b.1))).map Prod.snd

/-- preprocessing.py lines 27 to 29: set_params assigns self.degree when the
parameter dictionary has a degree key and does nothing otherwise.  The
dictionary is embedded as an association list; only the degree entry is ever
read, so the values are embedded at the degree type. -/
def Fourier.set_params (f : Fourier) (params : List (String × ℕ)) : Fourier :=
  match params.lookup ("degree") with
  | some d => { f with degree := d }
  | none => f

/-! ## periodogram.py -/

/-- periodogram.py lines 143 to 164: get_phase(time, period, shifts) returns
(time / period - shifts) % 1.0; the python modulo with positive modulus 1 is
the fractional part. -/
noncomputable def get_phase (time period shifts : ℝ) : ℝ :=
  Int.fract (time / period - shifts)

/-- Kernel-computable ceiling of a rational: the negated floor division of the
negated numerator by the denominator. -/
def ratCeil (q : ℚ) : ℤ := -((-q.num).fdiv (q.den : ℤ))

/-- numpy.arange(start, stop, step) for a positive step: the
ceil((stop - start) / step) values start + i * step strictly below stop. -/
def arange (start stop step : ℚ) : List ℚ :=
  (List.range (ratCeil ((stop - start) / step)).toNat).map
    (fun i => start + (i : ℚ) * step)

/-- periodogram.py lines 54 to 104, CE(period, data, xbins, ybins).  A
non-positive period returns infinity (line 56).  For a positive period the
source first runs `phase, mag, err = rephase(data, period)` (line 58), which
unpacks the ROWS of the rephased n by 3 array and therefore raises a
ValueError unless the dataset has exactly 3 rows; when it has exactly 3 rows,
line 59 then evaluates `np.histogram2d(phase, mag, [xbins, ybinx], ...)`
where the name `ybinx` is undefined (a typo for the `ybins` parameter), which
raises a NameError.  Every positive period therefore raises, and the entropy
computation of lines 75 to 104 is unreachable. -/
def CE (period : ℚ) (data : List (ℚ × ℚ × ℚ)) (xbins ybins : ℕ) :
    Except String (WithTop ℚ) :=
  if period ≤ 0 then .ok ⊤
  else if data.length = 3 then .error ("NameError: ybinx is not defined")
  else .error ("ValueError: cannot unpack rephased data rows")

/-- First index of the least element, numpy.argmin (first occurrence wins on
ties). -/
def argmin {A : Type} [LinearOrder A] : List A → ℕ
  | [] => 0
  | x :: xs =>
    match xs with
    | [] => 0
    | _ :: _ =>
      let j := argmin xs
      if x ≤ xs.getD j x then 0 else j + 1

/-- periodogram.py lines 35 to 51, conditional_entropy: reject multi-period
requests, sweep the candidate periods from min_period to max_period in steps
of precision, normalize the magnitude column of a copy of the data to [0, 1],
evaluate CE on every candidate over the normalized copy, and return the
candidate with the least entropy.  A python exception raised by any CE call
propagates out of the sweep. -/
def conditional_entropy (data : List (ℚ × ℚ × ℚ))
    (precision min_period max_period : ℚ)
    (min_period_count max_period_count : ℕ) (xbins ybins : ℕ) :
    Except String ℚ :=
  if min_period_count ≠ 1 ∨ max_period_count ≠ 1 then
    .error ("Exception: Conditional entropy can only find one period")
  else
    let periods := arange min_period max_period precision
    let mags := data.map (fun r => r.2.1)
    let lo := (mags.min?).getD 0
    let hi := (mags.max?).getD 0
    let copy := data.map (fun r => (r.1, (r.2.1 - lo) / (hi - lo), r.2.2))
    match periods.mapM (fun p => CE p copy xbins ybins) with
    | .error e => .error e
    | .ok entropies =>
      if periods.isEmpty then .error ("ValueError: argmin of an empty sequence")
      else .ok (periods.getD (argmin entropies) 0)

/-! ## Helper lemmas -/

lemma lookup_eq_none_of_not_mem {V : Type} (k : String) (params : List (String × V))
    (h : k ∉ params.map Prod.fst) : params.lookup k = none := by
  induction params with
  | nil => rfl
  | cons p ps ih =>
    simp only [List.map_cons, List.mem_cons, not_or] at h
    have hk : (k == p.1) = false := by
      simp only [beq_eq_false_iff_ne, ne_eq]
      exact h.1
    simp [List.lookup, hk, ih h.2]

lemma getD_map {A B : Type} (g : A → B) (l : List A) (i : ℕ)
    (hi : i < l.length) (d : A) (d' : B) :
    (l.map g).getD i d' = g (l.getD i d) := by
  rw [List.getD_eq_getElem _ _ (by simpa using hi), List.getElem_map,
    List.getD_eq_getElem _ _ hi]

lemma getD_replicate {A : Type} (n : ℕ) (a : A) (j : ℕ) (hj : j < n) (d : A) :
    (List.replicate n a).getD j d = a := by
  rw [List.getD_eq_getElem _ _ (by simpa using hj), List.getElem_replicate]

/-! ## C8: range and periodicity of the phase transform -/

/-- C8: for every period p > 0, every shift s and every real time t, the phase
transform get_phase returns (t / p - s) mod 1, which lies in [0, 1), and is
periodic in time with period p: get_phase (t + p) p s = get_phase t p s. -/
theorem c8_get_phase_range_and_periodic (t p s : ℝ) (hp : 0 < p) :
    (0 ≤ get_phase t p s ∧ get_phase t p s < 1) ∧
      get_phase (t + p) p s = get_phase t p s := by
  refine ⟨⟨Int.fract_nonneg _, Int.fract_lt_one _⟩, ?_⟩
  unfold get_phase
  have hp0 : p ≠ 0 := ne_of_gt hp
  have harg : (t + p) / p - s = (t / p - s) + ((1 : ℤ) : ℝ) := by
    push_cast
    field_simp
    ring
  rw [harg, Int.fract_add_int]

/-- Witness for C8 at t = 2, p = 1, s = 0. -/
theorem c8_witness :
    (0 : ℝ) < 1 ∧
      ((0 ≤ get_phase 2 1 0 ∧ get_phase 2 1 0 < 1) ∧
        get_phase (2 + 1) 1 0 = get_phase 2 1 0) :=
  ⟨by norm_num, c8_get_phase_range_and_periodic 2 1 0 (by norm_num)⟩

/-! ## C10: set_params ignores parameter dictionaries without a degree key -/

/-- C10: for every Fourier object and every parameter dictionary not
containing the key degree, Fourier.set_params leaves the object (whose whole
state is its degree) unchanged; in particular the orchestrator call that sets
a periods parameter on the Fourier pipeline stage does not change the stage. -/
theorem c10_set_params_frame (f : Fourier) (params : List (String × ℕ))
    (h : ("degree") ∉ params.map Prod.fst) : f.set_params params = f := by
  unfold Fourier.set_params
  rw [lookup_eq_none_of_not_mem _ _ h]

/-- Witness for C10: the orchestrator sets a periods parameter
(lightcurve.py line 242) and the Fourier stage is unchanged. -/
theorem c10_witness :
    Fourier.set_params ⟨3⟩ [(("periods"), 7)] = ⟨3⟩ :=
  c10_set_params_frame ⟨3⟩ [(("periods"), 7)] (by decide)

/-! ## C7: the conditional-entropy estimator -/

/-- C7: the conditional-entropy sweep does not return the entropy-minimizing
period; its helper CE evaluates the undefined name ybinx (periodogram.py line
59, a typo for the ybins parameter), so every positive candidate period makes
the sweep raise a NameError.  Evaluated here on a concrete three-point
dataset with the single candidate period 1. -/
theorem c7_conditional_entropy_raises :
    conditional_entropy [(0, 0, 1), (1, 1, 1), (2, 0, 1)] 1 1 2 1 1 10 5
      = .error ("NameError: ybinx is not defined") := by
  have hper : arange 1 2 1 = [1] := by
    unfold arange ratCeil
    norm_num [List.range_succ]
  have hce : ∀ g : ℚ × ℚ × ℚ → ℚ × ℚ × ℚ,
      CE 1 (([(0, 0, 1), (1, 1, 1), (2, 0, 1)] : List (ℚ × ℚ × ℚ)).map g) 10 5
        = .error ("NameError: ybinx is not defined") := by
    intro g
    unfold CE
    rw [if_neg (by norm_num), if_pos (by simp)]
  simp only [conditional_entropy, hper, List.mapM, List.mapM.loop, hce]
  norm_num

/-! ## C1: the outlier criterion of find_outliers -/

/-- Counterexample to C1 as stated.  First input: the 2-row, 2-column dataset
[[0, 0], [10, 0]] with the zero predictor and sigma = 1.  It has no error
column and, read row-wise as the claim does, every per-row residual is 0, so
the claimed criterion marks no row; the code, destructuring rows, computes
the per-column residuals [10, 0] from observations 0 and 1 and returns the
mask [[true, true], [false, false]], marking row 0.  Second input: the 3-row,
2-column dataset [[0, 0], [10, 0], [0, 0]]: still no error column, yet the
code now treats the third OBSERVATION as err[0] and again returns the 2 x 2
mask [[true, true], [false, false]] for a 3-row dataset, while the claimed
criterion yields [false, false, false].  The source raises nothing at either
input. -/
theorem c1_counterexample :
    (find_outliers (F := ℚ) [[0, 0], [10, 0]] (fun _ => 0) 1 mad
        = .ok [[true, true], [false, false]] ∧
      find_outliers_claimed (F := ℚ) [[0, 0], [10, 0]] (fun _ => 0) 1 mad
        = [false, false]) ∧
    (find_outliers (F := ℚ) [[0, 0], [10, 0], [0, 0]] (fun _ => 0) 1 mad
        = .ok [[true, true], [false, false]] ∧
      find_outliers_claimed (F := ℚ) [[0, 0], [10, 0], [0, 0]] (fun _ => 0) 1 mad
        = [false, false, false]) := by
  refine ⟨⟨?_, ?_⟩, ?_, ?_⟩
  · norm_num [find_outliers, mad, median, List.mergeSort, List.zipWith, List.replicate]
  · norm_num [find_outliers_claimed, List.zipWith]
  · norm_num [find_outliers, mad, median, List.mergeSort, List.zipWith, List.replicate]
  · norm_num [find_outliers_claimed, List.zipWith]

/-- C1 amended: find_outliers destructures the dataset's rows, so time and
mag are observations 0 and 1 and err tracks the row count, not an error
column.  A dataset with fewer than two rows raises (never yields a mask).
With at least three rows, entry (i, j) of the returned mask is true exactly
when the per-column residual of column i exceeds both entry i of observation
2 and sigma times the scale estimate of the per-column residual vector; with
exactly two rows the observation-2 comparison is replaced by True, and the
entry is true exactly when the residual of column i exceeds sigma times the
scale estimate. -/
theorem c1_amended_outlier_criterion {F : Type} [LinearOrderedField F]
    (time mag e0 : List F) (rest : List (List F)) (predict : F → F) (sigma : F)
    (method : List F → F) (i j : ℕ)
    (hml : mag.length = time.length) (hel : e0.length = time.length)
    (hi : i < time.length) (hj : j < time.length) :
    (∀ out, find_outliers (F := F) [time] predict sigma method ≠ .ok out) ∧
    ((((find_outliers (time :: mag :: e0 :: rest) predict sigma method).toOption.getD
        []).getD i []).getD j false = true ↔
      ((List.zipWith (fun t m => |predict t - m|) time mag).getD i 0 > e0.getD i 0 ∧
       (List.zipWith (fun t m => |predict t - m|) time mag).getD i 0 >
         sigma * method (List.zipWith (fun t m => |predict t - m|) time mag))) ∧
    ((((find_outliers [time, mag] predict sigma method).toOption.getD
        []).getD i []).getD j false = true ↔
      (List.zipWith (fun t m => |predict t - m|) time mag).getD i 0 >
        sigma * method (List.zipWith (fun t m => |predict t - m|) time mag)) := by
  have hR : (List.zipWith (fun t m => |predict t - m|) time mag).length = time.length := by
    simp [List.length_zipWith, hml]
  refine ⟨?_, ?_, ?_⟩
  · intro out h
    simp [find_outliers] at h
  · simp only [find_outliers, Except.toOption, Option.getD_some]
    rw [getD_map _ _ _ (by simp only [List.length_zipWith]; omega) false,
      getD_replicate _ _ _ hj,
      List.getD_eq_getElem _ _ (by simp only [List.length_zipWith]; omega),
      List.getElem_zipWith,
      List.getD_eq_getElem _ _ (by omega), List.getD_eq_getElem e0 _ (by omega)]
    simp [Bool.and_eq_true, decide_eq_true_eq]
  · simp only [find_outliers, Except.toOption, Option.getD_some]
    rw [getD_map _ _ _ (by simp only [List.length_map]; omega) false,
      getD_replicate _ _ _ hj,
      getD_map _ _ _ (by omega) (0 : F),
      List.getD_eq_getElem _ _ (by omega)]
    simp [decide_eq_true_eq]

/-- Witness for C1 amended at the 3-row dataset [[0], [3], [1]] (columns of
width one) and its 2-row prefix, with the zero predictor. -/
theorem c1_amended_witness :
    (∀ out, find_outliers (F := ℚ) [[0]] (fun _ => 0) 1 mad ≠ .ok out) ∧
    ((((find_outliers (F := ℚ) [[0], [3], [1]] (fun _ => 0) 1 mad).toOption.getD
        []).getD 0 []).getD 0 false = true ↔
      ((List.zipWith (fun _ m => |(0 : ℚ) - m|) [0] [3]).getD 0 0 > ([1] : List ℚ).getD 0 0 ∧
       (List.zipWith (fun _ m => |(0 : ℚ) - m|) [0] [3]).getD 0 0 >
         1 * mad (List.zipWith (fun _ m => |(0 : ℚ) - m|) [0] [3]))) ∧
    ((((find_outliers (F := ℚ) [[0], [3]] (fun _ => 0) 1 mad).toOption.getD
        []).getD 0 []).getD 0 false = true ↔
      (List.zipWith (fun _ m => |(0 : ℚ) - m|) [0] [3]).getD 0 0 >
        1 * mad (List.zipWith (fun _ m => |(0 : ℚ) - m|) [0] [3])) :=
  c1_amended_outlier_criterion [0] [3] [1] [] (fun _ => 0) 1 mad 0 0
    (by decide) (by decide) (by decide) (by decide)

/-! ## C2: insufficient inliers abort the loop with a null result -/

/-- C2: for every masked dataset whose unmasked row count is at most the
cross-validation fold count scoring_cv, the get_lightcurve loop returns the
null result immediately (zero fitting iterations, aborted exit, lightcurve.py
lines 225 to 228), raising no exception. -/
theorem c2_insufficient_data_aborts (scoring_cv : ℕ) (sigmaPos : Bool)
    (fitFails : List Bool → Bool) (detect : List Bool → List Bool)
    (fuel : ℕ) (mask : List Bool)
    (h : inlierCount mask ≤ scoring_cv) :
    get_lightcurve_loop scoring_cv sigmaPos fitFails detect fuel mask
      = (0, .aborted) := by
  have hi : get_lightcurve_iter scoring_cv sigmaPos fitFails detect mask
      = .insufficientData := by
    unfold get_lightcurve_iter
    rw [if_pos h]
  unfold get_lightcurve_loop
  rw [hi]

/-- Witness for C2: two usable points and scoring_cv = 3. -/
theorem c2_witness :
    get_lightcurve_loop 3 true (fun _ => false) (fun _ => []) 5 [false, false]
      = (0, .aborted) :=
  c2_insufficient_data_aborts 3 true (fun _ => false) (fun _ => []) 5
    [false, false] (by decide)

/-! ## C3 and C4: the mask update of the robust loop -/

lemma iter_reject_inv (scoring_cv : ℕ) (sigmaPos : Bool)
    (fitFails : List Bool → Bool) (detect : List Bool → List Bool)
    (mask m : List Bool)
    (h : get_lightcurve_iter scoring_cv sigmaPos fitFails detect mask = .reject m) :
    ¬ inlierCount mask ≤ scoring_cv ∧ m = maskOr mask (detect mask) ∧
      ¬ (countTrue (detect mask) = 0 ∨ submask (detect mask) mask = true) := by
  simp only [get_lightcurve_iter] at h
  split_ifs at h with h1 h2 h3 h4 <;>
    first
      | exact IterResult.noConfusion h
      | (injection h with h
         exact ⟨h1, h.symm, h4⟩)

lemma getD_maskOr_left (mask o : List Bool) (i : ℕ)
    (hlen : o.length = mask.length) (hm : mask.getD i false = true) :
    (maskOr mask o).getD i false = true := by
  induction mask generalizing o i with
  | nil => simp at hm
  | cons a l ih =>
    cases o with
    | nil => simp at hlen
    | cons b o' =>
      cases i with
      | zero =>
        simp only [List.getD_cons_zero] at hm
        simp [maskOr, hm]
      | succ n =>
        simp only [List.getD_cons_succ] at hm
        simpa [maskOr] using ih o' n (by simpa using hlen) hm

/-- C3: across successive iterations of the robust loop of get_lightcurve,
the masked set is non-decreasing: whenever a loop pass continues (does not
declare convergence and does not abort), every row masked before the pass is
still masked in the mask the pass hands to the next iteration. -/
theorem c3_mask_monotone (scoring_cv : ℕ) (sigmaPos : Bool)
    (fitFails : List Bool → Bool) (detect : List Bool → List Bool)
    (mask m : List Bool) (i : ℕ)
    (hd : (detect mask).length = mask.length)
    (h : get_lightcurve_iter scoring_cv sigmaPos fitFails detect mask = .reject m)
    (hm : mask.getD i false = true) : m.getD i false = true := by
  obtain ⟨-, hmdef, -⟩ := iter_reject_inv _ _ _ _ _ _ h
  rw [hmdef]
  exact getD_maskOr_left mask (detect mask) i hd hm

/-- Witness for C3: a two-row dataset with row 0 already masked; the detect
step flags row 1, the pass rejects and row 0 stays masked. -/
theorem c3_witness : ([true, true] : List Bool).getD 0 false = true :=
  c3_mask_monotone 0 true (fun _ => false) (fun _ => [false, true])
    [true, false] [true, true] 0 (by decide) (by decide) (by decide)

lemma maskOr_cons (a b : Bool) (l o : List Bool) :
    maskOr (a :: l) (b :: o) = (a || b) :: maskOr l o := rfl

lemma inlierCount_cons (x : Bool) (t : List Bool) :
    inlierCount (x :: t) = inlierCount t + if x = false then 1 else 0 := by
  cases x <;> simp [inlierCount, List.count_cons]

lemma inlierCount_maskOr_le (mask o : List Bool) (h : o.length = mask.length) :
    inlierCount (maskOr mask o) ≤ inlierCount mask := by
  induction mask generalizing o with
  | nil => cases o <;> simp [maskOr, inlierCount]
  | cons a l ih =>
    cases o with
    | nil => simp at h
    | cons b o' =>
      have hrec := ih o' (by simpa using h)
      rw [maskOr_cons, inlierCount_cons, inlierCount_cons]
      cases a <;> cases b <;> simp <;> omega

lemma inlierCount_maskOr_lt (mask o : List Bool) (h : o.length = mask.length)
    (i : ℕ) (hmi : mask.getD i false = false) (hi : i < mask.length)
    (hoi : o.getD i false = true) :
    inlierCount (maskOr mask o) < inlierCount mask := by
  induction mask generalizing o i with
  | nil => simp at hi
  | cons a l ih =>
    cases o with
    | nil => simp at h
    | cons b o' =>
      cases i with
      | zero =>
        simp only [List.getD_cons_zero] at hmi hoi
        subst hmi
        subst hoi
        have hrec := inlierCount_maskOr_le l o' (by simpa using h)
        rw [maskOr_cons, inlierCount_cons, inlierCount_cons]
        simp only [Bool.false_or, if_pos rfl]
        simp
        omega
      | succ n =>
        simp only [List.getD_cons_succ] at hmi hoi
        have hrec := ih o' (by simpa using h) n hmi (by simpa using hi) hoi
        rw [maskOr_cons, inlierCount_cons, inlierCount_cons]
        cases a <;> cases b <;> simp <;> omega

lemma not_submask_exists (o mask : List Bool) (hlen : o.length = mask.length)
    (h : ¬ submask o mask = true) :
    ∃ i, i < mask.length ∧ mask.getD i false = false ∧ o.getD i false = true := by
  rw [Bool.not_eq_true] at h
  unfold submask at h
  rw [List.all_eq_false] at h
  obtain ⟨i, hmem, hdec⟩ := h
  unfold trueIndices at hmem
  rw [List.mem_filter, List.mem_range] at hmem
  refine ⟨i, by omega, ?_, hmem.2⟩
  by_contra hmask
  rw [Bool.not_eq_false] at hmask
  apply hdec
  simp only [decide_eq_true_eq]
  unfold trueIndices
  rw [List.mem_filter, List.mem_range]
  exact ⟨by omega, hmask⟩

lemma get_lightcurve_loop_bound (scoring_cv : ℕ) (sigmaPos : Bool)
    (fitFails : List Bool → Bool) (detect : List Bool → List Bool)
    (hd : ∀ m, (detect m).length = m.length) :
    ∀ fuel mask, inlierCount mask ≤ scoring_cv + fuel →
      ((get_lightcurve_loop scoring_cv sigmaPos fitFails detect fuel mask).2 = .aborted ∨
        ∃ m, (get_lightcurve_loop scoring_cv sigmaPos fitFails detect fuel mask).2
          = .converged m) ∧
      (get_lightcurve_loop scoring_cv sigmaPos fitFails detect fuel mask).1 ≤ fuel := by
  intro fuel
  induction fuel with
  | zero =>
    intro mask hle
    have hiter : get_lightcurve_iter scoring_cv sigmaPos fitFails detect mask
        = .insufficientData := by
      unfold get_lightcurve_iter
      rw [if_pos (by omega)]
    unfold get_lightcurve_loop
    rw [hiter]
    exact ⟨Or.inl rfl, Nat.le_refl 0⟩
  | succ fuel ih =>
    intro mask hle
    unfold get_lightcurve_loop
    rcases hiter : get_lightcurve_iter scoring_cv sigmaPos fitFails detect mask with
      _ | _ | m | m
    · exact ⟨Or.inl rfl, Nat.zero_le _⟩
    · exact ⟨Or.inl rfl, Nat.succ_le_succ (Nat.zero_le _)⟩
    · exact ⟨Or.inr ⟨m, rfl⟩, Nat.succ_le_succ (Nat.zero_le _)⟩
    · obtain ⟨hgt, hmdef, hnot⟩ := iter_reject_inv _ _ _ _ _ _ hiter
      have hlt : inlierCount m < inlierCount mask := by
        rw [not_or] at hnot
        obtain ⟨i, hilen, hmi, hoi⟩ :=
          not_submask_exists (detect mask) mask (hd mask) hnot.2
        rw [hmdef]
        exact inlierCount_maskOr_lt mask (detect mask) (hd mask) i hmi hilen hoi
      have hrec := ih m (by omega)
      exact ⟨hrec.1, Nat.succ_le_succ hrec.2⟩

/-- The claimed converge-or-abort dichotomy and the n - scoring_cv iteration
bound, proved for the loop under a LENGTH-PRESERVING outlier step (one flag
per dataset row), which is what the intended find_outliers computes (the
transpose that lines 245, 362, 404 and 415 use and line 387 omits would make
its tiled mask n_rows x n_cols).  This documents that the claim matches the
intent of the code: only the shape slip in find_outliers breaks it (see the
C4 theorem below). -/
theorem intended_loop_dichotomy (scoring_cv n : ℕ) (sigmaPos : Bool)
    (fitFails : List Bool → Bool) (detect : List Bool → List Bool)
    (mask : List Bool) (hn : mask.length = n)
    (hd : ∀ m, (detect m).length = m.length) (hk : scoring_cv < n) :
    ((get_lightcurve_loop scoring_cv sigmaPos fitFails detect (n - scoring_cv) mask).2
        = .aborted ∨
      ∃ m, (get_lightcurve_loop scoring_cv sigmaPos fitFails detect (n - scoring_cv) mask).2
        = .converged m) ∧
    (get_lightcurve_loop scoring_cv sigmaPos fitFails detect (n - scoring_cv) mask).1
      ≤ n - scoring_cv := by
  apply get_lightcurve_loop_bound scoring_cv sigmaPos fitFails detect hd
  have := List.count_le_length false mask
  unfold inlierCount
  omega

/-- Concrete instance of the intended-behavior dichotomy on a two-row dataset
with one cross-validation fold: the first pass rejects both rows, the second
pass aborts for lack of inliers, within the bound of one fitting
iteration. -/
theorem intended_loop_dichotomy_example :
    ((get_lightcurve_loop 1 true (fun _ => false) (fun m => m.map (fun _ => true))
        (2 - 1) [false, false]).2 = .aborted ∨
      ∃ m, (get_lightcurve_loop 1 true (fun _ => false) (fun m => m.map (fun _ => true))
        (2 - 1) [false, false]).2 = .converged m) ∧
    (get_lightcurve_loop 1 true (fun _ => false) (fun m => m.map (fun _ => true))
      (2 - 1) [false, false]).1 ≤ 2 - 1 :=
  intended_loop_dichotomy 1 2 true (fun _ => false) (fun m => m.map (fun _ => true))
    [false, false] (by decide) (fun m => by simp) (by decide)

/-- C4: the code does not satisfy the claimed converge-or-abort dichotomy.
Because find_outliers destructures rows (the missing transpose at
lightcurve.py line 387), on a four-row, three-column dataset it returns a
3 x 3 mask: three per-column flags, each tiled to width 3.  The mask updates
at lines 289 and 295 then combine this 3 x 3 array with the 4 x 3 mask of the
dataset and raise a shape-mismatch exception (numpy MaskError on the
assignment of line 289, a broadcast ValueError in the mask_or of line 295),
so on such datasets the loop neither converges with a non-null result nor
aborts with a null one.  This theorem evaluates the embedded find_outliers at
that failing input: the produced mask has three rows of width three, while
the dataset has four rows. -/
theorem c4_mask_shape_mismatch :
    ((find_outliers (F := ℚ) [[0, 0, 1], [1, 10, 1], [2, 0, 1], [3, 0, 1]]
        (fun _ => 0) 20 mad).toOption.getD []).map List.length = [3, 3, 3] ∧
    ([[0, 0, 1], [1, 10, 1], [2, 0, 1], [3, 0, 1]] : List (List ℚ)).length = 4 := by
  constructor
  · norm_num [find_outliers, mad, median, List.mergeSort, List.zipWith,
      List.replicate, Except.toOption]
  · rfl

/-! ## C5 and C6: the Fourier design matrix and transform -/

/-- The row of trigonometric basis values built from a single phase. -/
noncomputable def trigRow (degree : ℕ) (x : ℝ) : List ℝ :=
  (List.range (2 * degree + 1)).map (fun j : ℕ =>
    if j = 0 then 1
    else if j % 2 = 1 then Real.cos (Real.pi * ((j : ℝ) + 1) * x)
    else Real.sin (Real.pi * (j : ℝ) * x))

lemma map_range_getD {A B : Type} (d : A) (g : A → B) (xs : List A) :
    (List.range xs.length).map (fun i => g (xs.getD i d)) = xs.map g := by
  induction xs with
  | nil => rfl
  | cons x l ih =>
    rw [List.length_cons, List.range_succ_eq_map, List.map_cons, List.map_map]
    simp only [List.getD_cons_zero]
    congr 1

lemma trig_matrix_eq_map (ps : List ℝ) (d : ℕ) :
    trigonometric_coefficient_matrix ps d = ps.map (trigRow d) :=
  map_range_getD 0 (trigRow d) ps

lemma zip_swap_map {A B C : Type} (g : A → C) :
    ∀ (X : List A) (R : List B),
      (X.zip R).map (fun a => (a.2, g a.1)) = R.zip (X.map g) := by
  intro X
  induction X with
  | nil => intro R; simp
  | cons x Xt ih =>
    intro R
    cases R with
    | nil => simp
    | cons r Rt =>
      simp only [List.zip_cons_cons, List.map_cons]
      rw [ih]

lemma sortback_eq_map (g : ℝ → List ℝ) (X : List ℝ) (srt : List (ℝ × ℕ))
    (hs : srt.Perm (X.zip (List.range X.length))) :
    ((((srt.map Prod.snd).zip ((srt.map Prod.fst).map g)).mergeSort
        (fun a b => decide (a.1 ≤ b.1))).map Prod.snd) = X.map g := by
  rw [List.map_map, List.zip_map']
  simp only [Function.comp_def]
  have hfst_target : List.map Prod.fst ((List.range X.length).zip (X.map g))
      = List.range X.length :=
    List.map_fst_zip _ _ (by simp)
  have hperm : ((srt.map (fun a => (a.2, g a.1))).mergeSort
      (fun a b => decide (a.1 ≤ b.1))).Perm ((List.range X.length).zip (X.map g)) := by
    refine (List.mergeSort_perm _ _).trans ?_
    refine (hs.map (fun a => (a.2, g a.1))).trans ?_
    rw [zip_swap_map]
  have hsorted : List.Pairwise
      (fun a b : ℕ × List ℝ => decide (a.1 ≤ b.1) = true)
      ((srt.map (fun a => (a.2, g a.1))).mergeSort
        (fun a b => decide (a.1 ≤ b.1))) := by
    apply List.sorted_mergeSort
    · intro a b c h1 h2
      simp only [decide_eq_true_eq] at h1 h2 ⊢
      omega
    · intro a b
      simp only [Bool.or_eq_true, decide_eq_true_eq]
      exact Nat.le_total _ _
  have hnd : List.Pairwise (fun a b : ℕ × List ℝ => a.1 ≠ b.1)
      ((srt.map (fun a => (a.2, g a.1))).mergeSort
        (fun a b => decide (a.1 ≤ b.1))) := by
    have h1 : (List.map Prod.fst
        ((srt.map (fun a => (a.2, g a.1))).mergeSort
          (fun a b => decide (a.1 ≤ b.1)))).Nodup := by
      rw [(hperm.map Prod.fst).nodup_iff, hfst_target]
      exact List.nodup_range _
    exact List.pairwise_map.mp h1
  have hlt : List.Pairwise (fun a b : ℕ × List ℝ => a.1 < b.1)
      ((srt.map (fun a => (a.2, g a.1))).mergeSort
        (fun a b => decide (a.1 ≤ b.1))) :=
    (hsorted.and hnd).imp (fun h => lt_of_le_of_ne (of_decide_eq_true h.1) h.2)
  have htargetlt : List.Pairwise (fun a b : ℕ × List ℝ => a.1 < b.1)
      ((List.range X.length).zip (X.map g)) := by
    have h1 : List.Pairwise (fun a b : ℕ => a < b)
        (List.map Prod.fst ((List.range X.length).zip (X.map g))) := by
      rw [hfst_target]
      exact List.pairwise_lt_range _
    exact List.pairwise_map.mp h1
  have heq : ((srt.map (fun a => (a.2, g a.1))).mergeSort
      (fun a b => decide (a.1 ≤ b.1))) = (List.range X.length).zip (X.map g) := by
    haveI : IsAntisymm (ℕ × List ℝ) (fun a b => a.1 < b.1) :=
      ⟨fun a b h1 h2 => ((lt_asymm h1) h2).elim⟩
    exact List.eq_of_perm_of_sorted hperm hlt htargetlt
  rw [heq]
  exact List.map_snd_zip _ _ (by simp)

lemma transform_eq_map (f : Fourier) (X : List ℝ) :
    f.transform X = X.map (trigRow f.degree) := by
  simp only [Fourier.transform]
  rw [trig_matrix_eq_map]
  exact sortback_eq_map (trigRow f.degree) X _ (List.mergeSort_perm _ _)

/-- C5: for every phase array and every degree, the Fourier design matrix has
one row per phase, each row has 2*degree+1 entries, entry (i, j) is 1 when
j = 0, cos(pi*(j+1)*phase_i) when j is odd, sin(pi*j*phase_i) when j is even
and nonzero, and entry 0 of every row is exactly 1. -/
theorem c5_trig_matrix (phases : List ℝ) (degree : ℕ) (i j : ℕ)
    (hi : i < phases.length) (hj : j < 2 * degree + 1) :
    (trigonometric_coefficient_matrix phases degree).length = phases.length ∧
    ((trigonometric_coefficient_matrix phases degree).getD i []).length
      = 2 * degree + 1 ∧
    ((trigonometric_coefficient_matrix phases degree).getD i []).getD j 0 =
      (if j = 0 then 1
       else if j % 2 = 1 then Real.cos (Real.pi * ((j : ℝ) + 1) * phases.getD i 0)
       else Real.sin (Real.pi * (j : ℝ) * phases.getD i 0)) ∧
    ((trigonometric_coefficient_matrix phases degree).getD i []).getD 0 0 = 1 := by
  have hrow : (trigonometric_coefficient_matrix phases degree).getD i [] =
      (List.range (2 * degree + 1)).map (fun k : ℕ =>
        if k = 0 then 1
        else if k % 2 = 1 then Real.cos (Real.pi * ((k : ℝ) + 1) * phases.getD i 0)
        else Real.sin (Real.pi * (k : ℝ) * phases.getD i 0)) := by
    unfold trigonometric_coefficient_matrix
    rw [List.getD_eq_getElem _ _ (by simpa using hi), List.getElem_map,
      List.getElem_range]
  refine ⟨by simp [trigonometric_coefficient_matrix], ?_, ?_, ?_⟩
  · rw [hrow]
    simp
  · rw [hrow, List.getD_eq_getElem _ _ (by simpa using hj), List.getElem_map,
      List.getElem_range]
  · rw [hrow, List.getD_eq_getElem _ _ (by simp), List.getElem_map,
      List.getElem_range]
    simp

/-- Witness for C5 at the one-element phase array [1] with degree 0. -/
theorem c5_witness :
    (0 < ([(1 : ℝ)] : List ℝ).length ∧ 0 < 2 * 0 + 1) ∧
    ((trigonometric_coefficient_matrix [(1 : ℝ)] 0).length = ([(1 : ℝ)] : List ℝ).length ∧
     ((trigonometric_coefficient_matrix [(1 : ℝ)] 0).getD 0 []).length = 2 * 0 + 1 ∧
     ((trigonometric_coefficient_matrix [(1 : ℝ)] 0).getD 0 []).getD 0 0 =
       (if (0 : ℕ) = 0 then 1
        else if (0 : ℕ) % 2 = 1 then
          Real.cos (Real.pi * (((0 : ℕ) : ℝ) + 1) * ([(1 : ℝ)] : List ℝ).getD 0 0)
        else Real.sin (Real.pi * ((0 : ℕ) : ℝ) * ([(1 : ℝ)] : List ℝ).getD 0 0)) ∧
     ((trigonometric_coefficient_matrix [(1 : ℝ)] 0).getD 0 []).getD 0 0 = 1) :=
  ⟨⟨by decide, by decide⟩, c5_trig_matrix [(1 : ℝ)] 0 0 0 (by decide) (by decide)⟩

/-- C6: Fourier.transform is row-order invariant: for every phase array X and
every in-bounds index list perm, row i of the transform of the permuted array
equals row perm[i] of the transform of the original array, even though the
transform sorts the phases internally. -/
theorem c6_transform_row_order_invariant (f : Fourier) (X : List ℝ)
    (perm : List ℕ) (i : ℕ) (hi : i < perm.length)
    (hj : perm.getD i 0 < X.length) :
    (f.transform (perm.map (fun j => X.getD j 0))).getD i [] =
      (f.transform X).getD (perm.getD i 0) [] := by
  rw [transform_eq_map, transform_eq_map, List.map_map]
  rw [getD_map _ _ _ hi 0, getD_map _ _ _ hj 0]
  rfl

/-- Witness for C6: the two-element phase array [0, 1] permuted by [1, 0],
compared at row 0. -/
theorem c6_witness :
    ((Fourier.mk 1).transform (([1, 0] : List ℕ).map (fun j => ([(0 : ℝ), 1]).getD j 0))).getD 0 []
      = ((Fourier.mk 1).transform [(0 : ℝ), 1]).getD (([1, 0] : List ℕ).getD 0 0) [] :=
  c6_transform_row_order_invariant ⟨1⟩ [(0 : ℝ), 1] [1, 0] 0 (by decide) (by decide)

end Plotypus
